import Mathlib

/-!
Verification of the period-comparison and reconciliation core of the
weekly reporting pipeline in `main.py`.

Conventions of the embedding:
* Calendar days are integers counting days from 1970-01-01 (which was a
  Thursday).  `pyWeekday` mirrors Python's `date.weekday()` (Monday = 0).
* Python floats are modelled as rationals (`ℚ`); `round(x, 1)` is
  modelled by `round1` (round half to even, as Python does on exact
  halves); `int(x)` is modelled by `pyInt` (truncation toward zero).
* pandas data frames are modelled as lists of records, one record per
  row; `NaN`-able columns are modelled with `Option`.
-/

/-- Python `round(x, 1)` helper: round a rational to the nearest integer,
halves to even. -/
def roundHalfEven (q : ℚ) : ℤ :=
  if q - ⌊q⌋ < 1/2 then ⌊q⌋
  else if q - ⌊q⌋ > 1/2 then ⌊q⌋ + 1
  else if ⌊q⌋ % 2 = 0 then ⌊q⌋ else ⌊q⌋ + 1

/-- Python `round(x, 1)`: one decimal place, half to even. -/
def round1 (q : ℚ) : ℚ := (roundHalfEven (q * 10) : ℚ) / 10

/-- Python `int(x)`: truncation toward zero. -/
def pyInt (q : ℚ) : ℤ := Int.tdiv q.num (q.den : ℤ)

theorem roundHalfEven_intCast (k : ℤ) : roundHalfEven (k : ℚ) = k := by
  unfold roundHalfEven
  rw [Int.floor_intCast]
  norm_num

theorem round1_intCast (k : ℤ) : round1 (k : ℚ) = k := by
  unfold round1
  have h : ((k : ℚ) * 10) = ((k * 10 : ℤ) : ℚ) := by push_cast; ring
  rw [h, roundHalfEven_intCast]
  push_cast
  field_simp

/-- Python's `date.weekday()` on a day number (1970-01-01, day 0, was a
Thursday): Monday = 0 … Sunday = 6. -/
def pyWeekday (n : ℤ) : ℤ := (n + 3) % 7

/-- Gregorian leap year test. -/
def isLeapYear (y : ℤ) : Bool := y % 4 == 0 && (y % 100 != 0 || y % 400 == 0)

/-- Number of days of month `m` of year `y`. -/
def daysInMonth (y : ℤ) (m : ℕ) : ℕ :=
  if m = 2 then (if isLeapYear y then 29 else 28)
  else if m = 4 ∨ m = 6 ∨ m = 9 ∨ m = 11 then 30
  else 31

/-- Day number (days since 1970-01-01) of the civil date `y-m-d`. -/
def daysFromCivil (y : ℤ) (m d : ℕ) : ℤ :=
  let y2 : ℤ := if m ≤ 2 then y - 1 else y
  let era : ℤ := Int.fdiv y2 400
  let yoe : ℤ := y2 - era * 400
  let mp : ℤ := if 2 < m then (m : ℤ) - 3 else (m : ℤ) + 9
  let doy : ℤ := Int.fdiv (153 * mp + 2) 5 + (d : ℤ) - 1
  let doe : ℤ := yoe * 365 + Int.fdiv yoe 4 - Int.fdiv yoe 100 + doy
  era * 146097 + doe - 719468

/-- Split a character list into the chunks separated by a dash. -/
def splitDash : List Char → List (List Char)
  | [] => [[]]
  | c :: cs =>
    if c = '-' then [] :: splitDash cs
    else
      match splitDash cs with
      | [] => [[c]]
      | g :: gs => (c :: g) :: gs

/-- Value of a nonempty all-digit character list. -/
def digitsVal (cs : List Char) : Option ℕ :=
  if cs = [] then none
  else if cs.all Char.isDigit then
    some (cs.foldl (fun a c => a * 10 + (c.toNat - 48)) 0)
  else none

/-- `datetime.strptime(s, "%Y-%m-%d").date()`: strict year-month-day
parse, rejecting out-of-range months and days (as `datetime` does). -/
def parseYmd (s : String) : Option (ℤ × ℕ × ℕ) :=
  match splitDash s.toList with
  | [ys, ms, ds] =>
    match digitsVal ys, digitsVal ms, digitsVal ds with
    | some y, some m, some d =>
      if 1 ≤ y ∧ y ≤ 9999 ∧ 1 ≤ m ∧ m ≤ 12 ∧ 1 ≤ d ∧ d ≤ daysInMonth (y : ℤ) m
      then some ((y : ℤ), m, d)
      else none
    | _, _, _ => none
  | _ => none

/-- The three accepted forms of the `run_date` argument of
`get_analysis_periods` (`main.py` lines 89-96): a `YYYY-MM-DD` string,
a `date`, or a `datetime` (truncated to its date). -/
inductive RunDate where
  | ofString (s : String)
  | ofDate (n : ℤ)
  | ofDatetime (n : ℤ) (secondOfDay : ℕ)
deriving DecidableEq

/-- Normalisation of `run_date` to a plain date (day number), mirroring
`main.py` lines 91-96.  The string form fails (a `ValueError` in Python)
when the text is not a valid `YYYY-MM-DD` date. -/
def normalizeRunDate : RunDate → Option ℤ
  | .ofString s => (parseYmd s).map (fun p => daysFromCivil p.1 p.2.1 p.2.2)
  | .ofDate n => some n
  | .ofDatetime n _ => some n

/-- A `{start, end}` window of calendar days, both ends inclusive. -/
structure Period where
  startDay : ℤ
  endDay : ℤ
deriving DecidableEq

/-- The pair of comparison windows returned by `get_analysis_periods`. -/
structure AnalysisPeriods where
  analysisPeriod : Period
  previousPeriod : Period
deriving DecidableEq

/-- `get_analysis_periods` (`main.py` lines 98-117) on a normalised run
date: `analysis_period` is the previous full Monday-Sunday week,
`previous_period` the week before it. -/
def getAnalysisPeriods (runDate : ℤ) : AnalysisPeriods :=
  let daysSinceMonday := pyWeekday runDate
  let previousMonday := runDate - (daysSinceMonday + 7)
  let previousSunday := previousMonday + 6
  let earlierMonday := previousMonday - 7
  let earlierSunday := earlierMonday + 6
  ⟨⟨previousMonday, previousSunday⟩, ⟨earlierMonday, earlierSunday⟩⟩

/-- `get_analysis_periods` on a raw `run_date` argument: normalise, then
compute the two windows. -/
def getAnalysisPeriodsFrom (r : RunDate) : Option AnalysisPeriods :=
  (normalizeRunDate r).map getAnalysisPeriods

/-- C1: for every reference date (string, date, or datetime) that
normalises to a day `n`, `get_analysis_periods` returns two
Monday-anchored 7-day windows, the analysis window ending on the Sunday
immediately before the reference date's own week (its end + 1 day is the
Monday of the reference week), and the prior window's end + 1 day equals
the analysis window's start. -/
theorem get_analysis_periods_windows (r : RunDate) (n : ℤ)
    (h : normalizeRunDate r = some n) :
    getAnalysisPeriodsFrom r = some (getAnalysisPeriods n) ∧
    pyWeekday (getAnalysisPeriods n).analysisPeriod.startDay = 0 ∧
    pyWeekday (getAnalysisPeriods n).previousPeriod.startDay = 0 ∧
    (getAnalysisPeriods n).analysisPeriod.endDay -
      (getAnalysisPeriods n).analysisPeriod.startDay + 1 = 7 ∧
    (getAnalysisPeriods n).previousPeriod.endDay -
      (getAnalysisPeriods n).previousPeriod.startDay + 1 = 7 ∧
    pyWeekday (getAnalysisPeriods n).analysisPeriod.endDay = 6 ∧
    (getAnalysisPeriods n).analysisPeriod.endDay + 1 = n - pyWeekday n ∧
    pyWeekday (n - pyWeekday n) = 0 ∧
    (getAnalysisPeriods n).previousPeriod.endDay + 1 =
      (getAnalysisPeriods n).analysisPeriod.startDay := by
  refine ⟨by rw [getAnalysisPeriodsFrom, h]; rfl, ?_⟩
  simp only [getAnalysisPeriods, pyWeekday]
  omega

/-- Witness for C1 at the concrete string date 2024-05-15 (a Wednesday,
day number 19858). -/
theorem get_analysis_periods_windows_witness :
    getAnalysisPeriodsFrom (.ofString "2024-05-15") =
      some (getAnalysisPeriods 19858) ∧
    pyWeekday (getAnalysisPeriods 19858).analysisPeriod.startDay = 0 ∧
    pyWeekday (getAnalysisPeriods 19858).previousPeriod.startDay = 0 ∧
    (getAnalysisPeriods 19858).analysisPeriod.endDay -
      (getAnalysisPeriods 19858).analysisPeriod.startDay + 1 = 7 ∧
    (getAnalysisPeriods 19858).previousPeriod.endDay -
      (getAnalysisPeriods 19858).previousPeriod.startDay + 1 = 7 ∧
    pyWeekday (getAnalysisPeriods 19858).analysisPeriod.endDay = 6 ∧
    (getAnalysisPeriods 19858).analysisPeriod.endDay + 1 =
      19858 - pyWeekday 19858 ∧
    pyWeekday (19858 - pyWeekday 19858) = 0 ∧
    (getAnalysisPeriods 19858).previousPeriod.endDay + 1 =
      (getAnalysisPeriods 19858).analysisPeriod.startDay :=
  get_analysis_periods_windows (.ofString "2024-05-15") 19858 (by decide)

/-- A period-over-period percent change: either the `float("inf")`
sentinel or a finite value. -/
inductive PctChange where
  | posInf
  | val (x : ℚ)
deriving DecidableEq

/-- Percent change as computed for each KPI in `analyze_weekly_kpis`
(`main.py` lines 905-912): `inf` when the earlier value is 0 and the
previous (current) value is positive, 0 when both are 0, otherwise the
rounded relative change. -/
def percentChangeKpi (earlier previous : ℚ) : PctChange :=
  if earlier = 0 then (if previous > 0 then .posInf else .val 0)
  else .val (round1 ((previous - earlier) / earlier * 100))

/-- Percent change as computed for each ranked product in
`analyze_top_products` (`main.py` lines 1704-1708). -/
def percentChangeProduct (earlier previous : ℚ) : PctChange :=
  if earlier > 0 then .val (round1 ((previous - earlier) / earlier * 100))
  else if previous > 0 then .posInf else .val 0

/-- C3: for nonnegative window values, both percent-change computations
return the `+∞` sentinel exactly when the prior value is 0 and the
current value is nonzero; when both are 0 the result is 0, never the
sentinel; and the change from 100 to 150 is 50.0. -/
theorem percent_change_infinity_rule (earlier previous : ℚ)
    (he : 0 ≤ earlier) (hp : 0 ≤ previous) :
    (percentChangeKpi earlier previous = .posInf ↔
      (earlier = 0 ∧ previous ≠ 0)) ∧
    (percentChangeProduct earlier previous = .posInf ↔
      (earlier = 0 ∧ previous ≠ 0)) ∧
    percentChangeKpi 0 0 = .val 0 ∧
    percentChangeProduct 0 0 = .val 0 ∧
    percentChangeKpi 100 150 = .val 50 ∧
    percentChangeProduct 100 150 = .val 50 := by
  have h50 : round1 ((150 - 100) / 100 * 100) = 50 := by
    have : ((150 : ℚ) - 100) / 100 * 100 = ((50 : ℤ) : ℚ) := by norm_num
    rw [this, round1_intCast]
    norm_num
  refine ⟨?_, ?_, ?_, ?_, ?_, ?_⟩
  · unfold percentChangeKpi
    split_ifs with h1 h2
    · exact iff_of_true rfl ⟨h1, ne_of_gt h2⟩
    · exact iff_of_false (by simp) (fun h => h.2 (le_antisymm (not_lt.mp h2) hp))
    · exact iff_of_false (by simp) (fun h => h1 h.1)
  · unfold percentChangeProduct
    split_ifs with h1 h2
    · exact iff_of_false (by simp)
        (fun h => absurd h1 (by rw [h.1]; exact lt_irrefl 0))
    · exact iff_of_true rfl ⟨le_antisymm (not_lt.mp h1) he, ne_of_gt h2⟩
    · exact iff_of_false (by simp) (fun h => h.2 (le_antisymm (not_lt.mp h2) hp))
  · unfold percentChangeKpi; norm_num
  · unfold percentChangeProduct; norm_num
  · unfold percentChangeKpi; rw [if_neg (by norm_num), h50]
  · unfold percentChangeProduct; rw [if_pos (by norm_num), h50]

/-- Witness for C3 at the concrete pair (prior 0, current 5): the
sentinel is produced, and the remaining concrete identities hold. -/
theorem percent_change_infinity_rule_witness :
    (percentChangeKpi 0 5 = .posInf ↔ ((0 : ℚ) = 0 ∧ (5 : ℚ) ≠ 0)) ∧
    (percentChangeProduct 0 5 = .posInf ↔ ((0 : ℚ) = 0 ∧ (5 : ℚ) ≠ 0)) ∧
    percentChangeKpi 0 0 = .val 0 ∧
    percentChangeProduct 0 0 = .val 0 ∧
    percentChangeKpi 100 150 = .val 50 ∧
    percentChangeProduct 100 150 = .val 50 :=
  percent_change_infinity_rule 0 5 (by norm_num) (by norm_num)

/-- Per-currency exchange rates known for one date. -/
abbrev CurRates := List (String × ℚ)

/-- The run's `rates_by_currency_date` dictionary: per date, the
per-currency rates (`main.py` lines 522-566). -/
abbrev RateTable := List (ℤ × CurRates)

/-- Dictionary lookup of one date's rates. -/
def lookupDate (t : RateTable) (d : ℤ) : Option CurRates :=
  (t.find? (fun e => e.1 == d)).map (·.2)

/-- Dictionary lookup of one currency's rate. -/
def lookupCur (l : CurRates) (c : String) : Option ℚ :=
  (l.find? (fun e => e.1 == c)).map (·.2)

/-- The rate stored for exactly `(d, c)`, when both keys are present. -/
def exactRate (t : RateTable) (d : ℤ) (c : String) : Option ℚ :=
  (lookupDate t d).bind (fun l => lookupCur l c)

/-- The static fallback rates of `main.py` lines 508-511, including the
`dict.get` default of 1.0 for unknown currencies. -/
def fallbackRates (c : String) : ℚ :=
  if c = "USD" then 92/100
  else if c = "GBP" then 115/100
  else if c = "CHF" then 96/100
  else if c = "DKK" then 13/100
  else if c = "NOK" then 9/100
  else if c = "SEK" then 9/100
  else if c = "PLN" then 23/100
  else 1

/-- The date keys of the rate table that are ≤ `d`
(`main.py` line 582). -/
def availableDatesLE (t : RateTable) (d : ℤ) : List ℤ :=
  (t.map (·.1)).filter (fun k => decide (k ≤ d))

/-- Largest element of an integer list, `none` on the empty list.  This
is `sorted(xs)[-1]` of `main.py` lines 582-584. -/
def maxKey : List ℤ → Option ℤ
  | [] => none
  | d :: ds =>
    match maxKey ds with
    | none => some d
    | some m => some (max d m)

theorem maxKey_spec : ∀ (l : List ℤ), l ≠ [] →
    ∃ m, maxKey l = some m ∧ m ∈ l ∧ ∀ x ∈ l, x ≤ m
  | [], h => absurd rfl h
  | d :: ds, _ => by
    by_cases hds : ds = []
    · subst hds
      exact ⟨d, rfl, List.mem_singleton.mpr rfl, by simp⟩
    · obtain ⟨m, hm, hmem, hub⟩ := maxKey_spec ds hds
      refine ⟨max d m, by simp [maxKey, hm], ?_, ?_⟩
      · rcases le_total d m with h | h
        · rw [max_eq_right h]; exact List.mem_cons_of_mem _ hmem
        · rw [max_eq_left h]; exact List.mem_cons_self _ _
      · intro x hx
        rcases List.mem_cons.mp hx with rfl | hx
        · exact le_max_left _ _
        · exact le_trans (hub x hx) (le_max_right _ _)

/-- `get_rate` (`main.py` lines 572-589): EUR is 1 unconditionally; then
the exact `(date, currency)` entry; then the *latest date key ≤ the
target that has any entry at all* — whose rates are consulted for the
currency, falling to the static constant if that one date lacks it; and
the static constant when no date key ≤ the target exists. -/
def getRate (t : RateTable) (d : ℤ) (c : String) : ℚ :=
  if c = "EUR" then 1
  else
    match exactRate t d c with
    | some r => r
    | none =>
      match maxKey (availableDatesLE t d) with
      | some closest =>
        match exactRate t closest c with
        | some r => r
        | none => fallbackRates c
      | none => fallbackRates c

/-- Rate resolution as the specification words it: exact date match,
else the rate at the nearest prior date *available for that currency*,
else the static fallback constant.  Stated only to be compared with
`getRate`. -/
def specGetRate (t : RateTable) (d : ℤ) (c : String) : ℚ :=
  if c = "EUR" then 1
  else
    match exactRate t d c with
    | some r => r
    | none =>
      match maxKey ((availableDatesLE t d).filter
          (fun k => (exactRate t k c).isSome)) with
      | some closest => (exactRate t closest c).getD (fallbackRates c)
      | none => fallbackRates c

/-- C4 counterexample: the table has a USD rate at day 10 and, at day
12, an entry for GBP only.  Resolving (day 12, USD) under the claim's
reading would give day 10's USD rate 0.9; `get_rate` instead inspects
only the nearest date with *any* entry (day 12 itself), finds no USD
there, and returns the static fallback 0.92. -/
theorem get_rate_nearest_prior_counterexample :
    getRate [(10, [("USD", 9/10), ("GBP", 12/10)]), (12, [("GBP", 119/100)])]
      12 "USD" = 92/100 ∧
    specGetRate [(10, [("USD", 9/10), ("GBP", 12/10)]), (12, [("GBP", 119/100)])]
      12 "USD" = 9/10 ∧
    exactRate [(10, [("USD", 9/10), ("GBP", 12/10)]), (12, [("GBP", 119/100)])]
      10 "USD" = some (9/10) ∧
    (92/100 : ℚ) ≠ 9/10 :=
  ⟨rfl, rfl, rfl, by norm_num⟩

/-- C4 (amended): `get_rate` resolves by exact date match; failing that
it takes `m`, the greatest date key ≤ the target *having any entry*, and
uses `m`'s rate for the currency when present; otherwise — including
when an older date does carry the currency — it returns the static
per-currency fallback constant, as it also does when no date key ≤ the
target exists. -/
theorem get_rate_amended (t : RateTable) (d : ℤ) (c : String)
    (hc : c ≠ "EUR") :
    (∀ r, exactRate t d c = some r → getRate t d c = r) ∧
    (∀ m, exactRate t d c = none → m ∈ t.map (·.1) → m ≤ d →
        (∀ k ∈ t.map (·.1), k ≤ d → k ≤ m) →
        (∀ r, exactRate t m c = some r → getRate t d c = r) ∧
        (exactRate t m c = none → getRate t d c = fallbackRates c)) ∧
    ((∀ k ∈ t.map (·.1), ¬ k ≤ d) → exactRate t d c = none →
        getRate t d c = fallbackRates c) := by
  refine ⟨?_, ?_, ?_⟩
  · intro r hr
    rw [getRate, if_neg hc, hr]
  · intro m hnone hmem hmd hmax
    have hm_avail : m ∈ availableDatesLE t d := by
      rw [availableDatesLE, List.mem_filter]
      exact ⟨hmem, by simpa using hmd⟩
    have hne : availableDatesLE t d ≠ [] := by
      intro h0; rw [h0] at hm_avail; exact absurd hm_avail (List.not_mem_nil m)
    obtain ⟨m2, hm2, hm2mem, hm2ub⟩ := maxKey_spec _ hne
    have hm2le : m2 ≤ m := by
      rw [availableDatesLE, List.mem_filter] at hm2mem
      exact hmax m2 hm2mem.1 (by simpa using hm2mem.2)
    have : m = m2 := le_antisymm (hm2ub m hm_avail) hm2le
    subst this
    constructor
    · intro r hr
      simp [getRate, hc, hnone, hm2, hr]
    · intro hr
      simp [getRate, hc, hnone, hm2, hr]
  · intro hlt hnone
    have hnil : availableDatesLE t d = [] := by
      rw [availableDatesLE, List.filter_eq_nil_iff]
      intro k hk
      simpa using hlt k hk
    rw [getRate, if_neg hc, hnone, hnil]
    rfl

/-- Witness for C4 (amended) at a one-entry table: day 10 is the
greatest key ≤ day 11 and carries USD, so the rate 0.9 is used. -/
theorem get_rate_amended_witness :
    getRate [((10 : ℤ), [("USD", (9 : ℚ)/10)])] 11 "USD" = 9/10 :=
  ((get_rate_amended [((10 : ℤ), [("USD", (9 : ℚ)/10)])] 11 "USD"
      (by decide)).2.1 10 rfl (by decide) (by decide)
      (by decide)).1 (9/10) rfl

/-- One row of the Magento daily query (`main.py` lines 448-467): one
(date, currency) pair with its counts and amounts. -/
structure MagentoCurrencyRow where
  order_day : ℤ
  currency : String
  transaction_count : ℚ
  total_units : ℚ
  total_revenue : ℚ
  total_discount : ℚ
deriving DecidableEq

/-- The `total_revenue_eur` value a row ends up with in
`convert_currencies_and_group_vectorized`: initialised to the original
amount (`main.py` line 501) and multiplied by the resolved rate only for
non-EUR currencies (lines 592-610, which skip EUR rows). -/
def rowRevenueEur (t : RateTable) (r : MagentoCurrencyRow) : ℚ :=
  if r.currency = "EUR" then r.total_revenue
  else r.total_revenue * getRate t r.order_day r.currency

/-- `total_discount_eur`, same scheme as `rowRevenueEur`. -/
def rowDiscountEur (t : RateTable) (r : MagentoCurrencyRow) : ℚ :=
  if r.currency = "EUR" then r.total_discount
  else r.total_discount * getRate t r.order_day r.currency

/-- C7: conversion is the identity on reporting-currency rows — the
resolved rate for EUR is 1.0 for every date and every rate table, and an
EUR row's converted amount fields equal the original amounts (also when
written as amount × resolved rate). -/
theorem eur_conversion_identity (t : RateTable) (d : ℤ)
    (r : MagentoCurrencyRow) (h : r.currency = "EUR") :
    getRate t d "EUR" = 1 ∧
    rowRevenueEur t r = r.total_revenue ∧
    rowDiscountEur t r = r.total_discount ∧
    rowRevenueEur t r = r.total_revenue * getRate t r.order_day r.currency := by
  have hrate : ∀ d2 : ℤ, getRate t d2 "EUR" = 1 := fun d2 => by
    rw [getRate, if_pos rfl]
  refine ⟨hrate d, by rw [rowRevenueEur, if_pos h],
    by rw [rowDiscountEur, if_pos h], ?_⟩
  rw [rowRevenueEur, if_pos h, h, hrate, mul_one]

/-- Witness for C7 at a concrete EUR row and empty rate table. -/
theorem eur_conversion_identity_witness :
    getRate [] 7 "EUR" = 1 ∧
    rowRevenueEur [] ⟨0, "EUR", 1, 2, 100, 5⟩ = (100 : ℚ) ∧
    rowDiscountEur [] ⟨0, "EUR", 1, 2, 100, 5⟩ = (5 : ℚ) ∧
    rowRevenueEur [] ⟨0, "EUR", 1, 2, 100, 5⟩ =
      (100 : ℚ) * getRate [] 0 "EUR" :=
  eur_conversion_identity [] 7 ⟨0, "EUR", 1, 2, 100, 5⟩ rfl

/-- One row of the Magento daily table after currency conversion and
grouping (`main.py` lines 613-627). -/
structure MagentoDay where
  order_day : ℤ
  transaction_count : ℚ
  total_units : ℚ
  total_revenue_eur : ℚ
  total_discount_eur : ℚ
deriving DecidableEq

/-- One row of the GA4 daily table (`main.py` lines 635-685), with the
optional pre-supplied `ecr` column value. -/
structure Ga4Day where
  date : ℤ
  sessions : ℚ
  transactions : ℚ
  users : ℚ
  ecr : ℚ
deriving DecidableEq

/-- One row of the merged daily table produced by `merge_data_sources`. -/
structure MergedDay where
  date : ℤ
  transaction_count : ℚ
  total_units : ℚ
  total_revenue_eur : ℚ
  total_discount_eur : ℚ
  sessions : ℚ
  ecr : ℚ
  users : ℚ
deriving DecidableEq

/-- The (unique) Magento row of a given date, if any. -/
def lookupMagento (rows : List MagentoDay) (d : ℤ) : Option MagentoDay :=
  rows.find? (fun r => r.order_day == d)

/-- The (unique) GA4 row of a given date, if any. -/
def lookupGa4 (rows : List Ga4Day) (d : ℤ) : Option Ga4Day :=
  rows.find? (fun r => r.date == d)

/-- The `ecr` value carried into the merge (`main.py` lines 717-722):
the pre-supplied column when it exists, otherwise
`transactions / sessions * 100` with 0 for sessionless days. -/
def ga4EcrValue (hasEcr : Bool) (g : Ga4Day) : ℚ :=
  if hasEcr then g.ecr
  else if g.sessions > 0 then g.transactions / g.sessions * 100 else 0

/-- The date column of the merged table: the distinct dates present in
either source, sorted descending (`pd.merge(..., how="outer")` on
one-row-per-date inputs followed by `sort_values(ascending=False)`,
`main.py` lines 724-733). -/
def mergeDates (mag : List MagentoDay) (ga4 : List Ga4Day) : List ℤ :=
  List.insertionSort (fun a b => b ≤ a)
    ((mag.map (·.order_day) ++ ga4.map (·.date)).dedup)

/-- `merge_data_sources` (`main.py` lines 692-738): outer join of the
two daily series on date, missing side zero-filled (`fillna(0)`), sorted
descending by date. -/
def mergeDataSources (mag : List MagentoDay) (ga4 : List Ga4Day)
    (hasEcr : Bool) : List MergedDay :=
  (mergeDates mag ga4).map (fun d =>
    { date := d
      transaction_count := ((lookupMagento mag d).map (·.transaction_count)).getD 0
      total_units := ((lookupMagento mag d).map (·.total_units)).getD 0
      total_revenue_eur := ((lookupMagento mag d).map (·.total_revenue_eur)).getD 0
      total_discount_eur := ((lookupMagento mag d).map (·.total_discount_eur)).getD 0
      sessions := ((lookupGa4 ga4 d).map (·.sessions)).getD 0
      ecr := ((lookupGa4 ga4 d).map (ga4EcrValue hasEcr)).getD 0
      users := ((lookupGa4 ga4 d).map (·.users)).getD 0 })

/-- C2 counterexample: with Magento rows on days 0 and 2 and a GA4 row
on day 0, the interval [min, max] = [0, 2] of observed dates contains
day 1, but the merged output has no row dated 1 — the outer join emits
one row per date present in *either source*, not per date of the
interval. -/
theorem merge_data_sources_interval_counterexample :
    (mergeDataSources [⟨0, 1, 1, 1, 1⟩, ⟨2, 1, 1, 1, 1⟩]
        [⟨0, 5, 1, 4, 20⟩] true).map (·.date) = [2, 0] ∧
    (1 : ℤ) ∉ (mergeDataSources [⟨0, 1, 1, 1, 1⟩, ⟨2, 1, 1, 1, 1⟩]
        [⟨0, 5, 1, 4, 20⟩] true).map (·.date) ∧
    (0 : ℤ) ∈ [(⟨0, 1, 1, 1, 1⟩ : MagentoDay), ⟨2, 1, 1, 1, 1⟩].map (·.order_day) ∧
    (2 : ℤ) ∈ [(⟨0, 1, 1, 1, 1⟩ : MagentoDay), ⟨2, 1, 1, 1, 1⟩].map (·.order_day) ∧
    (0 : ℤ) ≤ 1 ∧ (1 : ℤ) ≤ 2 := by
  decide

/-- C2 (amended): on one-row-per-date inputs, the merged table has
exactly one row per date present in *either* source (dates of neither
source, including interval gaps, get no row), fields of a source with no
row on a date are zero-filled, and rows are sorted descending by date. -/
theorem merge_data_sources_amended (mag : List MagentoDay)
    (ga4 : List Ga4Day) (hasEcr : Bool)
    (_hm : (mag.map (·.order_day)).Nodup) (_hg : (ga4.map (·.date)).Nodup) :
    (∀ d : ℤ, ((mergeDataSources mag ga4 hasEcr).map (·.date)).count d =
        (if d ∈ mag.map (·.order_day) ∨ d ∈ ga4.map (·.date) then 1 else 0)) ∧
    ((mergeDataSources mag ga4 hasEcr).map (·.date)).Sorted (fun a b => b ≤ a) ∧
    (∀ r ∈ mergeDataSources mag ga4 hasEcr,
        (r.date ∉ mag.map (·.order_day) →
          r.transaction_count = 0 ∧ r.total_units = 0 ∧
          r.total_revenue_eur = 0 ∧ r.total_discount_eur = 0) ∧
        (r.date ∉ ga4.map (·.date) →
          r.sessions = 0 ∧ r.ecr = 0 ∧ r.users = 0)) := by
  have hdates : (mergeDataSources mag ga4 hasEcr).map (·.date) =
      mergeDates mag ga4 := by
    rw [mergeDataSources, List.map_map]
    exact List.map_id _
  refine ⟨?_, ?_, ?_⟩
  · intro d
    rw [hdates, mergeDates,
      (List.perm_insertionSort (fun a b : ℤ => b ≤ a) _).count_eq]
    by_cases hmem : d ∈ mag.map (·.order_day) ∨ d ∈ ga4.map (·.date)
    · rw [if_pos hmem]
      exact List.count_eq_one_of_mem (List.nodup_dedup _)
        (List.mem_dedup.mpr (List.mem_append.mpr hmem))
    · rw [if_neg hmem]
      exact List.count_eq_zero_of_not_mem
        (fun hc => hmem (List.mem_append.mp (List.mem_dedup.mp hc)))
  · rw [hdates, mergeDates]
    exact List.sorted_insertionSort _ _
  · intro r hr
    rw [mergeDataSources] at hr
    obtain ⟨d, hd, rfl⟩ := List.mem_map.mp hr
    constructor
    · intro hnm
      have hnone : lookupMagento mag d = none := by
        rw [lookupMagento, List.find?_eq_none]
        intro x hx hpx
        exact hnm (List.mem_map.mpr ⟨x, hx, by simpa using hpx⟩)
      simp [hnone]
    · intro hng
      have hnone : lookupGa4 ga4 d = none := by
        rw [lookupGa4, List.find?_eq_none]
        intro x hx hpx
        exact hng (List.mem_map.mpr ⟨x, hx, by simpa using hpx⟩)
      simp [hnone]

/-- Witness for C2 (amended): a date present only in the GA4 source
still gets exactly one merged row. -/
theorem merge_data_sources_amended_witness :
    ((mergeDataSources [⟨0, 1, 2, 3, 4⟩] [⟨1, 5, 1, 7, 50⟩] true).map
      (·.date)).count 1 = 1 := by
  have h := (merge_data_sources_amended [⟨0, 1, 2, 3, 4⟩]
    [⟨1, 5, 1, 7, 50⟩] true (by decide) (by decide)).1 1
  rw [h]
  decide

/-- Rows of the merged table falling inside a comparison window
(`main.py` lines 789-801). -/
def windowRows (df : List MergedDay) (p : Period) : List MergedDay :=
  df.filter (fun r => decide (p.startDay ≤ r.date) && decide (r.date ≤ p.endDay))

/-- Window total of the `sessions` column. -/
def totalSessions (rows : List MergedDay) : ℚ :=
  (rows.map (·.sessions)).sum

/-- Session-weighted average of the pre-supplied daily eCR values
(`main.py` lines 839-844). -/
def ecrWeighted (rows : List MergedDay) : ℚ :=
  if totalSessions rows > 0 then
    (rows.map (fun r => r.ecr * r.sessions)).sum / totalSessions rows
  else 0

/-- eCR derived from window totals (`main.py` line 837). -/
def ecrFromTotals (rows : List MergedDay) : ℚ :=
  if totalSessions rows > 0 then
    (rows.map (·.transaction_count)).sum / totalSessions rows * 100
  else 0

/-- The six window-level KPI values of `analyze_weekly_kpis` (counts as
`int(...)`, the rest rounded to one decimal). -/
structure WeekKpis where
  transaction_count : ℤ
  total_revenue_eur : ℚ
  aov_eur : ℚ
  units_per_order : ℚ
  sessions : ℤ
  ecr : ℚ
deriving DecidableEq

/-- The all-zero KPI set reported for an empty window
(`main.py` lines 814-823 and 860-869). -/
def zeroWeekKpis : WeekKpis := ⟨0, 0, 0, 0, 0, 0⟩

/-- One window's KPI set (`main.py` lines 813-857): zeros when the
window has no rows, otherwise sums and guarded ratios; `hasEcr` tells
whether a pre-supplied non-null eCR column exists (the merged table
always has one), choosing the session-weighted average over the
from-totals derivation. -/
def weekKpis (hasEcr : Bool) (rows : List MergedDay) : WeekKpis :=
  if rows = [] then zeroWeekKpis
  else
    ⟨pyInt ((rows.map (·.transaction_count)).sum),
     round1 ((rows.map (·.total_revenue_eur)).sum),
     round1 (if (rows.map (·.transaction_count)).sum > 0 then
       (rows.map (·.total_revenue_eur)).sum / (rows.map (·.transaction_count)).sum
       else 0),
     round1 (if (rows.map (·.transaction_count)).sum > 0 then
       (rows.map (·.total_units)).sum / (rows.map (·.transaction_count)).sum
       else 0),
     pyInt (totalSessions rows),
     round1 (if hasEcr then ecrWeighted rows else ecrFromTotals rows)⟩

instance : IsTotal MergedDay (fun a b => a.date ≤ b.date) :=
  ⟨fun a b => le_total a.date b.date⟩

instance : IsTrans MergedDay (fun a b => a.date ≤ b.date) :=
  ⟨fun _ _ _ h1 h2 => le_trans h1 h2⟩

/-- The rows feeding every KPI timeline (`main.py` lines 803-806): all
merged rows dated on or after `run_date - 60` — there is no upper bound —
sorted ascending by date. -/
def timelineRows (df : List MergedDay) (runDate : ℤ) : List MergedDay :=
  List.insertionSort (fun a b => a.date ≤ b.date)
    (df.filter (fun r => decide (runDate - 60 ≤ r.date)))

/-- The outputs of `analyze_weekly_kpis` relevant here: both windows,
their KPI sets, the per-KPI percent changes, and the common date column
of the KPI timelines. -/
structure WeeklyKpiResult where
  analysisPeriod : Period
  previousPeriod : Period
  previousWeek : WeekKpis
  earlierWeek : WeekKpis
  pcTransactionCount : PctChange
  pcTotalRevenueEur : PctChange
  pcAovEur : PctChange
  pcUnitsPerOrder : PctChange
  pcSessions : PctChange
  pcEcr : PctChange
  timelineDates : List ℤ
deriving DecidableEq

/-- `analyze_weekly_kpis` (`main.py` lines 742-986) on the merged daily
table: window KPI sets, percent changes on the (rounded) window values,
and the timeline date column. -/
def analyzeWeeklyKpis (df : List MergedDay) (hasEcr : Bool)
    (runDate : ℤ) : WeeklyKpiResult :=
  let periods := getAnalysisPeriods runDate
  let pk := weekKpis hasEcr (windowRows df periods.analysisPeriod)
  let ek := weekKpis hasEcr (windowRows df periods.previousPeriod)
  { analysisPeriod := periods.analysisPeriod
    previousPeriod := periods.previousPeriod
    previousWeek := pk
    earlierWeek := ek
    pcTransactionCount :=
      percentChangeKpi (ek.transaction_count : ℚ) (pk.transaction_count : ℚ)
    pcTotalRevenueEur := percentChangeKpi ek.total_revenue_eur pk.total_revenue_eur
    pcAovEur := percentChangeKpi ek.aov_eur pk.aov_eur
    pcUnitsPerOrder := percentChangeKpi ek.units_per_order pk.units_per_order
    pcSessions := percentChangeKpi (ek.sessions : ℚ) (pk.sessions : ℚ)
    pcEcr := percentChangeKpi ek.ecr pk.ecr
    timelineDates := (timelineRows df runDate).map (·.date) }

/-- C5 counterexample: run on day 0 (a Thursday), the analysis window
ends on day −4, yet a merged row dated day 0 — after the window's end —
still appears in the timeline, because the timeline filter has only a
lower bound. -/
theorem analyze_weekly_kpis_timeline_cap_counterexample :
    (analyzeWeeklyKpis [⟨0, 0, 0, 0, 0, 0, 0, 0⟩] true 0).timelineDates = [0] ∧
    (analyzeWeeklyKpis [⟨0, 0, 0, 0, 0, 0, 0, 0⟩] true 0).analysisPeriod.endDay
      = -4 ∧
    ∃ d ∈ (analyzeWeeklyKpis [⟨0, 0, 0, 0, 0, 0, 0, 0⟩] true 0).timelineDates,
      (analyzeWeeklyKpis [⟨0, 0, 0, 0, 0, 0, 0, 0⟩] true 0).analysisPeriod.endDay
        < d := by
  decide

/-- C5 (amended): every KPI timeline ranges over the merged rows dated
on or after `run_date - 60`, all of them and nothing else, sorted
ascending — with no upper cap, so entries may be dated after the current
window's end. -/
theorem analyze_weekly_kpis_timeline_horizon (df : List MergedDay)
    (hasEcr : Bool) (runDate : ℤ) :
    (∀ d ∈ (analyzeWeeklyKpis df hasEcr runDate).timelineDates,
        runDate - 60 ≤ d) ∧
    (∀ r ∈ df, runDate - 60 ≤ r.date →
        r.date ∈ (analyzeWeeklyKpis df hasEcr runDate).timelineDates) ∧
    ((analyzeWeeklyKpis df hasEcr runDate).timelineDates).Sorted (· ≤ ·) := by
  have ht : (analyzeWeeklyKpis df hasEcr runDate).timelineDates =
      (timelineRows df runDate).map (·.date) := rfl
  have hperm := List.perm_insertionSort (fun a b : MergedDay => a.date ≤ b.date)
    (df.filter (fun r => decide (runDate - 60 ≤ r.date)))
  refine ⟨?_, ?_, ?_⟩
  · intro d hd
    rw [ht] at hd
    obtain ⟨r, hr, rfl⟩ := List.mem_map.mp hd
    have hr2 := hperm.mem_iff.mp hr
    have := (List.mem_filter.mp hr2).2
    simpa using this
  · intro r hr hb
    rw [ht]
    refine List.mem_map.mpr ⟨r, ?_, rfl⟩
    exact hperm.mem_iff.mpr
      (List.mem_filter.mpr ⟨hr, by simpa using hb⟩)
  · rw [ht, List.Sorted, List.pairwise_map]
    exact List.sorted_insertionSort _ _

/-- Witness for C5 (amended): the concrete in-horizon row of day 0
appears in the timeline. -/
theorem analyze_weekly_kpis_timeline_horizon_witness :
    (0 : ℤ) ∈ (analyzeWeeklyKpis [⟨0, 0, 0, 0, 0, 0, 0, 0⟩] true 0).timelineDates :=
  (analyze_weekly_kpis_timeline_horizon [⟨0, 0, 0, 0, 0, 0, 0, 0⟩] true 0).2.1
    ⟨0, 0, 0, 0, 0, 0, 0, 0⟩ (List.mem_singleton.mpr rfl) (by decide)

/-- C8: over a window whose days all carry the same positive session
count `s` and whose pre-supplied daily eCR values equal that day's
conversions / sessions × 100, the session-weighted eCR average of
`analyze_weekly_kpis` equals the simple ratio
total conversions / total sessions × 100 — and the reported window eCR
is that ratio rounded. -/
theorem ecr_weighted_equals_simple_ratio (rows : List MergedDay) (s : ℚ)
    (conv : MergedDay → ℚ) (hne : rows ≠ []) (hs : 0 < s)
    (hsess : ∀ r ∈ rows, r.sessions = s)
    (hecr : ∀ r ∈ rows, r.ecr = conv r / s * 100) :
    ecrWeighted rows =
      (rows.map conv).sum / (rows.map (·.sessions)).sum * 100 ∧
    (weekKpis true rows).ecr =
      round1 ((rows.map conv).sum / (rows.map (·.sessions)).sum * 100) := by
  have hTS : totalSessions rows = (rows.length : ℚ) * s := by
    rw [totalSessions, List.map_congr_left hsess]
    simp [List.map_const', List.sum_replicate, nsmul_eq_mul]
  have hlen : (0 : ℚ) < (rows.length : ℚ) := by
    have h0 : 0 < rows.length := List.length_pos.mpr hne
    exact_mod_cast h0
  have hTSpos : 0 < totalSessions rows := by
    rw [hTS]; exact mul_pos hlen hs
  have hW : (rows.map (fun r => r.ecr * r.sessions)).sum =
      (rows.map conv).sum * 100 := by
    have hcong : ∀ r ∈ rows, r.ecr * r.sessions = conv r * 100 := by
      intro r hr
      rw [hecr r hr, hsess r hr]
      field_simp
    rw [List.map_congr_left hcong]
    have : rows.map (fun r => conv r * 100) = (rows.map conv).map (· * 100) := by
      rw [List.map_map]
      rfl
    rw [this]
    induction (rows.map conv) with
    | nil => simp
    | cons a l ih => simp [ih, add_mul]
  have h1 : ecrWeighted rows =
      (rows.map conv).sum / (rows.map (·.sessions)).sum * 100 := by
    rw [ecrWeighted, if_pos hTSpos, hW]
    show (rows.map conv).sum * 100 / totalSessions rows = _
    rw [totalSessions, div_mul_eq_mul_div]
  refine ⟨h1, ?_⟩
  rw [weekKpis, if_neg hne]
  show round1 (if true = true then ecrWeighted rows else ecrFromTotals rows) = _
  rw [if_pos rfl, h1]

/-- Witness for C8: two days with 10 sessions each and consistent daily
eCR values 20 and 30; the weighted average equals 5/20 × 100 = 25. -/
theorem ecr_weighted_equals_simple_ratio_witness :
    ecrWeighted [⟨-10, 2, 0, 0, 0, 10, 20, 0⟩, ⟨-9, 3, 0, 0, 0, 10, 30, 0⟩] =
      ([(⟨-10, 2, 0, 0, 0, 10, 20, 0⟩ : MergedDay), ⟨-9, 3, 0, 0, 0, 10, 30, 0⟩].map
          (·.transaction_count)).sum /
        ([(⟨-10, 2, 0, 0, 0, 10, 20, 0⟩ : MergedDay), ⟨-9, 3, 0, 0, 0, 10, 30, 0⟩].map
          (·.sessions)).sum * 100 ∧
    (weekKpis true [⟨-10, 2, 0, 0, 0, 10, 20, 0⟩, ⟨-9, 3, 0, 0, 0, 10, 30, 0⟩]).ecr =
      round1
        (([(⟨-10, 2, 0, 0, 0, 10, 20, 0⟩ : MergedDay), ⟨-9, 3, 0, 0, 0, 10, 30, 0⟩].map
            (·.transaction_count)).sum /
          ([(⟨-10, 2, 0, 0, 0, 10, 20, 0⟩ : MergedDay), ⟨-9, 3, 0, 0, 0, 10, 30, 0⟩].map
            (·.sessions)).sum * 100) :=
  ecr_weighted_equals_simple_ratio
    [⟨-10, 2, 0, 0, 0, 10, 20, 0⟩, ⟨-9, 3, 0, 0, 0, 10, 30, 0⟩] 10
    (·.transaction_count) (by simp) (by norm_num)
    (by
      intro r hr
      rcases List.mem_cons.mp hr with rfl | hr2
      · rfl
      · rcases List.mem_cons.mp hr2 with rfl | hr3
        · rfl
        · exact absurd hr3 (List.not_mem_nil r))
    (by
      intro r hr
      rcases List.mem_cons.mp hr with rfl | hr2
      · show (20 : ℚ) = 2 / 10 * 100
        norm_num
      · rcases List.mem_cons.mp hr2 with rfl | hr3
        · show (30 : ℚ) = 3 / 10 * 100
          norm_num
        · exact absurd hr3 (List.not_mem_nil r))

/-- One row of the per-product revenue table (`main.py` lines 1507-1565):
one (date, product) pair's revenue. -/
structure ProductRow where
  date : ℤ
  product_name : String
  revenue : ℚ
deriving DecidableEq

/-- Product rows inside a comparison window
(`main.py` lines 1643-1647). -/
def productWindowRows (df : List ProductRow) (p : Period) : List ProductRow :=
  df.filter (fun r => decide (p.startDay ≤ r.date) && decide (r.date ≤ p.endDay))

/-- One product's summed revenue over a row set — one entry of the
`groupby("product_name")["revenue"].sum()` of `main.py` line 1662. -/
def productRevenue (rows : List ProductRow) (name : String) : ℚ :=
  ((rows.filter (fun r => r.product_name == name)).map (·.revenue)).sum

/-- Total revenue of a row set across all products
(`main.py` line 1665). -/
def totalRevenue (rows : List ProductRow) : ℚ :=
  (rows.map (·.revenue)).sum

/-- A product's reported share of the window total
(`main.py` lines 1711-1713): rounded, 0 when the total is not
positive. -/
def reportedSharePct (rows : List ProductRow) (name : String) : ℚ :=
  if totalRevenue rows > 0 then
    round1 (productRevenue rows name / totalRevenue rows * 100)
  else 0

theorem sum_productRevenue_toFinset (rows : List ProductRow) :
    ∑ name ∈ (rows.map (·.product_name)).toFinset, productRevenue rows name =
      totalRevenue rows := by
  induction rows with
  | nil => simp [productRevenue, totalRevenue]
  | cons r t ih =>
    have hsplit : ∀ name, productRevenue (r :: t) name =
        (if r.product_name = name then r.revenue else 0) +
          productRevenue t name := by
      intro name
      rw [productRevenue, productRevenue, List.filter_cons]
      by_cases h : r.product_name = name
      · simp [h]
      · simp [h]
    simp only [List.map_cons, List.toFinset_cons]
    rw [Finset.sum_congr rfl (fun x _ => hsplit x), Finset.sum_add_distrib]
    have hind : ∑ x ∈ insert r.product_name (t.map (·.product_name)).toFinset,
        (if r.product_name = x then r.revenue else 0) = r.revenue := by
      rw [Finset.sum_ite_eq, if_pos (Finset.mem_insert_self _ _)]
    have hrest : ∑ x ∈ insert r.product_name (t.map (·.product_name)).toFinset,
        productRevenue t x =
        ∑ x ∈ (t.map (·.product_name)).toFinset, productRevenue t x := by
      by_cases hmem : r.product_name ∈ (t.map (·.product_name)).toFinset
      · rw [Finset.insert_eq_self.mpr hmem]
      · rw [Finset.sum_insert hmem]
        have hz : productRevenue t r.product_name = 0 := by
          rw [productRevenue]
          have hfil : t.filter (fun x => x.product_name == r.product_name) = [] := by
            rw [List.filter_eq_nil_iff]
            intro a ha hpa
            exact hmem (List.mem_toFinset.mpr
              (List.mem_map.mpr ⟨a, ha, (by simpa using hpa)⟩))
          rw [hfil]
          rfl
        rw [hz, zero_add]
    rw [hind, hrest, ih, totalRevenue, totalRevenue, List.map_cons,
      List.sum_cons]

/-- C9: when the current window's total revenue across all products is
nonzero, the share-of-total values (each product's window revenue over
the window total, × 100) sum to exactly 100 over the full product set;
the reported per-product figure is that share rounded to one decimal. -/
theorem product_shares_sum_to_100 (df : List ProductRow) (runDate : ℤ)
    (h : totalRevenue
      (productWindowRows df (getAnalysisPeriods runDate).analysisPeriod) ≠ 0) :
    (∑ name ∈ ((productWindowRows df
          (getAnalysisPeriods runDate).analysisPeriod).map
          (·.product_name)).toFinset,
        productRevenue (productWindowRows df
            (getAnalysisPeriods runDate).analysisPeriod) name /
          totalRevenue (productWindowRows df
            (getAnalysisPeriods runDate).analysisPeriod) * 100) = 100 ∧
    (0 < totalRevenue
        (productWindowRows df (getAnalysisPeriods runDate).analysisPeriod) →
      ∀ name, reportedSharePct
          (productWindowRows df (getAnalysisPeriods runDate).analysisPeriod)
          name =
        round1 (productRevenue (productWindowRows df
            (getAnalysisPeriods runDate).analysisPeriod) name /
          totalRevenue (productWindowRows df
            (getAnalysisPeriods runDate).analysisPeriod) * 100)) := by
  constructor
  · rw [← Finset.sum_mul, ← Finset.sum_div, sum_productRevenue_toFinset,
      div_self h, one_mul]
  · intro hpos name
    rw [reportedSharePct, if_pos hpos]

/-- Witness for C9 at two products with window revenues 30 and 70. -/
theorem product_shares_sum_to_100_witness :
    (∑ name ∈ ((productWindowRows [⟨-10, "A", 30⟩, ⟨-10, "B", 70⟩]
          (getAnalysisPeriods 0).analysisPeriod).map
          (·.product_name)).toFinset,
        productRevenue (productWindowRows [⟨-10, "A", 30⟩, ⟨-10, "B", 70⟩]
            (getAnalysisPeriods 0).analysisPeriod) name /
          totalRevenue (productWindowRows [⟨-10, "A", 30⟩, ⟨-10, "B", 70⟩]
            (getAnalysisPeriods 0).analysisPeriod) * 100) = 100 ∧
    (0 < totalRevenue (productWindowRows [⟨-10, "A", 30⟩, ⟨-10, "B", 70⟩]
        (getAnalysisPeriods 0).analysisPeriod) →
      ∀ name, reportedSharePct
          (productWindowRows [⟨-10, "A", 30⟩, ⟨-10, "B", 70⟩]
            (getAnalysisPeriods 0).analysisPeriod) name =
        round1 (productRevenue (productWindowRows [⟨-10, "A", 30⟩, ⟨-10, "B", 70⟩]
            (getAnalysisPeriods 0).analysisPeriod) name /
          totalRevenue (productWindowRows [⟨-10, "A", 30⟩, ⟨-10, "B", 70⟩]
            (getAnalysisPeriods 0).analysisPeriod) * 100)) :=
  product_shares_sum_to_100 [⟨-10, "A", 30⟩, ⟨-10, "B", 70⟩] 0
    (by
      have he : productWindowRows [⟨-10, "A", 30⟩, ⟨-10, "B", 70⟩]
          (getAnalysisPeriods 0).analysisPeriod =
          [⟨-10, "A", 30⟩, ⟨-10, "B", 70⟩] := by
        simp [productWindowRows, getAnalysisPeriods, pyWeekday]
      rw [he, totalRevenue]
      norm_num)

/-- The per-date aggregates over the integration table that feed the
coverage query of `fetch_magento_ga4_data` (`main.py` lines 2141-2160). -/
structure CoverageAgg where
  order_date : ℤ
  magento_transactions : ℚ
  ga4_transactions : ℚ
  magento_revenue : ℚ
  ga4_revenue : ℚ
deriving DecidableEq

/-- One row of the daily coverage table; the two rate columns are
`NULL`-able (hence `Option`). -/
structure CoverageRow where
  order_date : ℤ
  magento_transactions : ℚ
  ga4_transactions : ℚ
  transaction_coverage_rate : Option ℚ
  magento_revenue : ℚ
  ga4_revenue : ℚ
  revenue_coverage_rate : Option ℚ
deriving DecidableEq

/-- BigQuery `SAFE_DIVIDE`: `NULL` on a zero denominator. -/
def safeDivide (a b : ℚ) : Option ℚ :=
  if b = 0 then none else some (a / b)

/-- One output row of the coverage query (`main.py` lines 2141-2160):
the rates are `SAFE_DIVIDE(secondary, primary) * 100`, `NULL` when the
primary figure is 0. -/
def fetchCoverageRow (a : CoverageAgg) : CoverageRow :=
  ⟨a.order_date, a.magento_transactions, a.ga4_transactions,
    (safeDivide a.ga4_transactions a.magento_transactions).map (· * 100),
    a.magento_revenue, a.ga4_revenue,
    (safeDivide a.ga4_revenue a.magento_revenue).map (· * 100)⟩

/-- `fetch_magento_ga4_data` on the per-date aggregates. -/
def fetchMagentoGa4Data (agg : List CoverageAgg) : List CoverageRow :=
  agg.map fetchCoverageRow

/-- The rounding step of `clean_coverage_data` (`main.py` lines
2202-2212); pandas `.round(1)` maps `NaN` to `NaN`. -/
def roundCoverageRow (r : CoverageRow) : CoverageRow :=
  { r with
    transaction_coverage_rate := r.transaction_coverage_rate.map round1
    revenue_coverage_rate := r.revenue_coverage_rate.map round1
    magento_revenue := round1 r.magento_revenue
    ga4_revenue := round1 r.ga4_revenue }

/-- `clean_coverage_data` (`main.py` lines 2173-2226): keep only rows up
to the analysis window's end, round, then drop every row with a missing
critical field (`dropna` over the count, revenue and rate columns — in
this model the two `NULL`-able rate columns). -/
def cleanCoverageData (df : List CoverageRow) (runDate : ℤ) : List CoverageRow :=
  ((df.filter (fun r =>
      decide (r.order_date ≤ (getAnalysisPeriods runDate).analysisPeriod.endDay))).map
    roundCoverageRow).filter
    (fun r => r.transaction_coverage_rate.isSome && r.revenue_coverage_rate.isSome)

/-- C6: after the cleaning step, every surviving daily coverage row has
a nonzero primary (Magento) count and both coverage rates defined; a row
with primary count 0 — whose rate is `NULL` by `SAFE_DIVIDE` — is
excluded entirely from the table that weekly aggregation consumes. -/
theorem clean_coverage_excludes_undefined_rows (agg : List CoverageAgg)
    (runDate : ℤ) :
    ∀ r ∈ cleanCoverageData (fetchMagentoGa4Data agg) runDate,
      r.magento_transactions ≠ 0 ∧
      r.transaction_coverage_rate.isSome = true ∧
      r.revenue_coverage_rate.isSome = true := by
  intro r hr
  rw [cleanCoverageData] at hr
  obtain ⟨hr2, hcrit⟩ := List.mem_filter.mp hr
  simp only [Bool.and_eq_true] at hcrit
  obtain ⟨htx, hrv⟩ := hcrit
  obtain ⟨x, hx, rfl⟩ := List.mem_map.mp hr2
  have hx2 := (List.mem_filter.mp hx).1
  rw [fetchMagentoGa4Data] at hx2
  obtain ⟨a, ha, rfl⟩ := List.mem_map.mp hx2
  refine ⟨?_, htx, hrv⟩
  intro h0
  simp only [roundCoverageRow, fetchCoverageRow] at htx h0
  rw [h0, safeDivide] at htx
  simp at htx

/-- Witness for C6: with one aggregate row of primary count 4 on day
−20, the cleaned table's row keeps a nonzero primary count and defined
rates (a primary-count-0 row would have been dropped by the same
filter). -/
theorem clean_coverage_excludes_undefined_rows_witness :
    (roundCoverageRow (fetchCoverageRow ⟨-20, 4, 2, 10, 5⟩)).magento_transactions ≠ 0 ∧
    (roundCoverageRow
      (fetchCoverageRow ⟨-20, 4, 2, 10, 5⟩)).transaction_coverage_rate.isSome = true ∧
    (roundCoverageRow
      (fetchCoverageRow ⟨-20, 4, 2, 10, 5⟩)).revenue_coverage_rate.isSome = true :=
  clean_coverage_excludes_undefined_rows [⟨-20, 4, 2, 10, 5⟩] 0
    (roundCoverageRow (fetchCoverageRow ⟨-20, 4, 2, 10, 5⟩))
    (List.mem_singleton.mpr rfl)

/-- Daily coverage rows inside a comparison window
(`main.py` lines 2258-2270). -/
def coverageWindowRows (df : List CoverageRow) (p : Period) : List CoverageRow :=
  df.filter (fun r => decide (p.startDay ≤ r.order_date) && decide (r.order_date ≤ p.endDay))

/-- One aggregated week of `calculate_weekly_coverage`. -/
structure WeeklyCoverageRow where
  week_start : ℤ
  week_end : ℤ
  magento_transactions : ℚ
  ga4_transactions : ℚ
  magento_revenue : ℚ
  ga4_revenue : ℚ
  transaction_coverage_rate : ℚ
  revenue_coverage_rate : ℚ
deriving DecidableEq

/-- Aggregation of one window's rows (`main.py` lines 2278-2296):
summed counts and revenues, with zero-guarded coverage ratios. -/
def weeklyAgg (p : Period) (rows : List CoverageRow) : WeeklyCoverageRow :=
  ⟨p.startDay, p.endDay,
    (rows.map (·.magento_transactions)).sum,
    (rows.map (·.ga4_transactions)).sum,
    (rows.map (·.magento_revenue)).sum,
    (rows.map (·.ga4_revenue)).sum,
    if (rows.map (·.magento_transactions)).sum > 0 then
      (rows.map (·.ga4_transactions)).sum /
        (rows.map (·.magento_transactions)).sum * 100
    else 0,
    if (rows.map (·.magento_revenue)).sum > 0 then
      (rows.map (·.ga4_revenue)).sum / (rows.map (·.magento_revenue)).sum * 100
    else 0⟩

/-- `calculate_weekly_coverage` (`main.py` lines 2230-2332): one
aggregated row per *non-empty* comparison window — an empty window
appends nothing, so the result can have fewer than two rows. -/
def calculateWeeklyCoverage (df : List CoverageRow) (runDate : ℤ) :
    List WeeklyCoverageRow :=
  let periods := getAnalysisPeriods runDate
  let prev := coverageWindowRows df periods.analysisPeriod
  let earl := coverageWindowRows df periods.previousPeriod
  (if prev = [] then [] else [weeklyAgg periods.analysisPeriod prev]) ++
  (if earl = [] then [] else [weeklyAgg periods.previousPeriod earl])

/-- The outcome of `analyze_weekly_coverage_with_claude`'s guard: either
the insufficient-data early return or a week-over-week comparison. -/
inductive CoverageAnalysis where
  | insufficientData
  | comparison (txChange revChange : ℚ)
deriving DecidableEq

instance : IsTotal WeeklyCoverageRow (fun a b => b.week_start ≤ a.week_start) :=
  ⟨fun a b => le_total b.week_start a.week_start⟩

instance : IsTrans WeeklyCoverageRow (fun a b => b.week_start ≤ a.week_start) :=
  ⟨fun _ _ _ h1 h2 => le_trans h2 h1⟩

/-- `analyze_weekly_coverage_with_claude`'s data handling (`main.py`
lines 2354-2387): fewer than two weekly rows yields the
insufficient-data result; otherwise the rows are sorted most recent
first and the top two weeks are compared. -/
def analyzeWeeklyCoverage (dfw : List WeeklyCoverageRow) : CoverageAnalysis :=
  if dfw.length < 2 then .insufficientData
  else
    match List.insertionSort (fun a b => b.week_start ≤ a.week_start) dfw with
    | a :: b :: _ =>
      .comparison (a.transaction_coverage_rate - b.transaction_coverage_rate)
        (a.revenue_coverage_rate - b.revenue_coverage_rate)
    | _ => .insufficientData

/-- C10: the weekly coverage calculator omits an empty week's row
entirely — if either comparison window has no coverage rows the weekly
table has fewer than two rows and carries no row for that week, and the
downstream analysis then returns the insufficient-data result; the
weekly KPI aggregator, by contrast, reports zeros for an empty
window. -/
theorem weekly_coverage_omits_empty_weeks (df : List CoverageRow)
    (runDate : ℤ) :
    (coverageWindowRows df (getAnalysisPeriods runDate).analysisPeriod = [] →
      (calculateWeeklyCoverage df runDate).length < 2 ∧
      ∀ w ∈ calculateWeeklyCoverage df runDate,
        w.week_start ≠ (getAnalysisPeriods runDate).analysisPeriod.startDay) ∧
    (coverageWindowRows df (getAnalysisPeriods runDate).previousPeriod = [] →
      (calculateWeeklyCoverage df runDate).length < 2 ∧
      ∀ w ∈ calculateWeeklyCoverage df runDate,
        w.week_start ≠ (getAnalysisPeriods runDate).previousPeriod.startDay) ∧
    ((calculateWeeklyCoverage df runDate).length < 2 →
      analyzeWeeklyCoverage (calculateWeeklyCoverage df runDate) =
        .insufficientData) ∧
    (∀ (mdf : List MergedDay) (hasEcr : Bool),
      windowRows mdf (getAnalysisPeriods runDate).analysisPeriod = [] →
      (analyzeWeeklyKpis mdf hasEcr runDate).previousWeek = zeroWeekKpis) := by
  have hne : (getAnalysisPeriods runDate).previousPeriod.startDay ≠
      (getAnalysisPeriods runDate).analysisPeriod.startDay := by
    simp only [getAnalysisPeriods]
    omega
  refine ⟨?_, ?_, ?_, ?_⟩
  · intro h
    by_cases hearl :
        coverageWindowRows df (getAnalysisPeriods runDate).previousPeriod = []
    · have hcalc : calculateWeeklyCoverage df runDate = [] := by
        rw [calculateWeeklyCoverage]; simp [h, hearl]
      rw [hcalc]
      exact ⟨by norm_num, fun w hw => absurd hw (List.not_mem_nil w)⟩
    · have hcalc : calculateWeeklyCoverage df runDate =
          [weeklyAgg (getAnalysisPeriods runDate).previousPeriod
            (coverageWindowRows df (getAnalysisPeriods runDate).previousPeriod)] := by
        rw [calculateWeeklyCoverage]; simp [h, hearl]
      rw [hcalc]
      refine ⟨by norm_num, fun w hw => ?_⟩
      rw [List.mem_singleton.mp hw]
      exact hne
  · intro h
    by_cases hprev :
        coverageWindowRows df (getAnalysisPeriods runDate).analysisPeriod = []
    · have hcalc : calculateWeeklyCoverage df runDate = [] := by
        rw [calculateWeeklyCoverage]; simp [h, hprev]
      rw [hcalc]
      exact ⟨by norm_num, fun w hw => absurd hw (List.not_mem_nil w)⟩
    · have hcalc : calculateWeeklyCoverage df runDate =
          [weeklyAgg (getAnalysisPeriods runDate).analysisPeriod
            (coverageWindowRows df (getAnalysisPeriods runDate).analysisPeriod)] := by
        rw [calculateWeeklyCoverage]; simp [h, hprev]
      rw [hcalc]
      refine ⟨by norm_num, fun w hw => ?_⟩
      rw [List.mem_singleton.mp hw]
      exact Ne.symm hne
  · intro h
    rw [analyzeWeeklyCoverage, if_pos h]
  · intro mdf hasEcr h
    show weekKpis hasEcr (windowRows mdf (getAnalysisPeriods runDate).analysisPeriod)
      = zeroWeekKpis
    rw [h, weekKpis, if_pos rfl]

/-- Witness for C10: with no coverage rows at all, both windows are
empty, the weekly table is empty, and the analysis reports insufficient
data; an empty merged table likewise yields the all-zero KPI set. -/
theorem weekly_coverage_omits_empty_weeks_witness :
    analyzeWeeklyCoverage (calculateWeeklyCoverage [] 0) = .insufficientData ∧
    (analyzeWeeklyKpis [] true 0).previousWeek = zeroWeekKpis := by
  have h := weekly_coverage_omits_empty_weeks [] 0
  refine ⟨h.2.2.1 ?_, h.2.2.2 [] true rfl⟩
  exact (h.1 rfl).1
